import Mathlib

/-!
Shallow embedding of the Lot Ledger & Trade Execution Core of the
`agent_workshop` repository.

Embedded sources:
* `trading-service/utils.py` — `calc_qty_symbol` (quantity resolver),
  the `active_lots` / `history_lots` table operations (`create_lot`,
  `create_history_lot`, `delete_lot`, `get_symbols_active_lots`,
  `get_count_lots`, `get_qty_symbol`).
* `trading-service/main.py` — `process_trade` (signal orchestrator).
* `trading-system/agents/trading_agent.py` — `_execute_order_with_retry`
  and the tail of `execute_trade` (retry gateway).

Python decimals/floats are modelled as exact rationals (`ℚ`); the Python
built-in `round(x, p)` is modelled as round-half-to-even at `p` decimal
digits over `ℚ`.
-/

namespace AgentWorkshop

/-! ## Quantity resolver (`trading-service/utils.py`, `calc_qty_symbol`) -/

/-- The Python built-in `round` on a number with zero decimal digits:
round half to even (bankers rounding), as an integer result. -/
def pythonRoundInt (x : ℚ) : ℤ :=
  if x - (⌊x⌋ : ℚ) < 1 / 2 then ⌊x⌋
  else if 1 / 2 < x - (⌊x⌋ : ℚ) then ⌊x⌋ + 1
  else if ⌊x⌋ % 2 = 0 then ⌊x⌋ else ⌊x⌋ + 1

/-- The Python `round(x, p)`: round half to even at `p` decimal digits. -/
def pythonRound (x : ℚ) (p : Nat) : ℚ :=
  (pythonRoundInt (x * 10 ^ p) : ℚ) / 10 ^ p

/-- The Python `str.split(sep)` for a single separator character, on the
character list of the string: splits at every occurrence of `sep`, and
an empty input yields one empty part. -/
def splitOnChar (sep : Char) : List Char → List (List Char)
  | [] => [[]]
  | c :: cs =>
    if c = sep then [] :: splitOnChar sep cs
    else
      match splitOnChar sep cs with
      | [] => [[c]]
      | h :: t => (c :: h) :: t

/-- `utils.py` lines 427-430: the decimal precision derived from the
quantity step string of the exchange — `0` when `step_qty.split(".")`
has a single part, otherwise the length of the part after the dot. -/
def precisionOfStep (stepQty : String) : Nat :=
  let parts := splitOnChar (Char.ofNat 46) stepQty.data
  if parts.length = 1 then 0
  else (parts.getD 1 []).length

/-- `TradingClient.calc_qty_symbol` (`utils.py` lines 422-444), with the
values fetched from the exchange and the management service passed as
arguments: `symbolWalletBalance` (held balance of the asset), the
instrument limits `maxQty`/`minQty`/`stepQty`/`minOrderUsdt`, the control
state `fakeBalance`/`numAvailableLots`, and the signal `price`. -/
def calc_qty_symbol (symbolWalletBalance maxQty minQty : ℚ) (stepQty : String)
    (minOrderUsdt : ℤ) (fakeBalance numAvailableLots price : ℚ) : ℚ :=
  let precisionQty := precisionOfStep stepQty
  let qty := fakeBalance / numAvailableLots / price
  let qty := qty - symbolWalletBalance
  let qty := pythonRound qty precisionQty
  if qty * price < (minOrderUsdt : ℚ) ∧ qty < minQty then 0
  else if qty > maxQty then maxQty
  else qty

/-! ## Lot ledger storage (`trading-service/utils.py`) -/

/-- One row of the `active_lots` table (`initialize_active_lots_table`,
`utils.py` lines 39-61).  The DDL declares
`symbol VARCHAR(50) NOT NULL` with no `UNIQUE` constraint on `symbol`;
only `id` is a key.  We keep the business columns. -/
structure Lot where
  symbol : String
  qty : ℚ
  price : ℚ
deriving DecidableEq, Repr

/-- One row of the append-only `history_lots` table
(`initialize_history_lots_table`, `utils.py` lines 63-85). -/
structure HistoryLot where
  action : String
  symbol : String
  qty : ℚ
  price : ℚ
deriving DecidableEq, Repr

/-- The persisted ledger plus the management-service control value
`fake_balance` (`routes.py` `app_state["fake_balance"]`), which
`process_trade` reads and writes through the HTTP client. -/
structure LedgerState where
  activeLots : List Lot
  historyLots : List HistoryLot
  fakeBalance : ℚ
deriving DecidableEq, Repr

/-- `create_lot` (`utils.py` lines 111-126): plain
`INSERT INTO active_lots (symbol, qty, price) VALUES …`.  The table has
no uniqueness constraint on `symbol`, so the insert is total: it
succeeds even when a row for `symbol` already exists. -/
def create_lot (st : LedgerState) (symbol : String) (qty price : ℚ) : LedgerState :=
  { st with activeLots := st.activeLots ++ [⟨symbol, qty, price⟩] }

/-- `create_history_lot` (`utils.py` lines 129-145): append a history row. -/
def create_history_lot (st : LedgerState) (action symbol : String) (qty price : ℚ) :
    LedgerState :=
  { st with historyLots := st.historyLots ++ [⟨action, symbol, qty, price⟩] }

/-- `delete_lot` (`utils.py` lines 148-161):
`DELETE FROM active_lots WHERE symbol = %s`. -/
def delete_lot (st : LedgerState) (symbol : String) : LedgerState :=
  { st with activeLots := st.activeLots.filter (fun l => l.symbol ≠ symbol) }

/-- `get_symbols_active_lots` (`utils.py` lines 180-193):
`SELECT symbol FROM active_lots`. -/
def get_symbols_active_lots (st : LedgerState) : List String :=
  st.activeLots.map Lot.symbol

/-- `get_count_lots` (`utils.py` lines 196-209):
`SELECT COUNT(id) FROM active_lots`. -/
def get_count_lots (st : LedgerState) : Nat :=
  st.activeLots.length

/-- `get_qty_symbol` (`utils.py` lines 212-226):
`SELECT qty FROM active_lots WHERE symbol = %s`, first row.  The Python
code would fault on an absent symbol (`fetchone()` is `None`); its only
caller guards with a membership check, so we return `0` there. -/
def get_qty_symbol (st : LedgerState) (symbol : String) : ℚ :=
  match st.activeLots.find? (fun l => l.symbol = symbol) with
  | some l => l.qty
  | none => 0

/-- `count(active_lots where symbol = s)` — the quantity the uniqueness invariant of the spec bounds. -/
def countSymbol (st : LedgerState) (s : String) : Nat :=
  (st.activeLots.filter (fun l => l.symbol = s)).length

/-- The per-symbol uniqueness invariant: at most one open lot per symbol. -/
def UniqueLots (st : LedgerState) : Prop :=
  ∀ s : String, countSymbol st s ≤ 1

instance (st : LedgerState) : Decidable (UniqueLots st) := by
  unfold UniqueLots
  have : (∀ s ∈ get_symbols_active_lots st, countSymbol st s ≤ 1) ↔
      (∀ s : String, countSymbol st s ≤ 1) := by
    constructor
    · intro h s
      by_cases hs : s ∈ get_symbols_active_lots st
      · exact h s hs
      · have : st.activeLots.filter (fun l => l.symbol = s) = [] := by
          apply List.filter_eq_nil_iff.mpr
          intro l hl hls
          exact hs (List.mem_map.mpr ⟨l, hl, by simpa using hls⟩)
        simp [countSymbol, this]
    · intro h s _
      exact h s
  exact decidable_of_iff _ this

/-! ## Signal orchestrator (`trading-service/main.py`, `process_trade`) -/

/-- An inbound signal as `process_trade` decodes it (`main.py` lines
40-43): the action is `"buy"` when `price_buy` is present and truthy,
otherwise `"sell"`; `deltaTime` is the elapsed seconds
`(datetime.now() - timestamp).total_seconds()` of line 50. -/
structure Signal where
  symbol : String
  priceBuy : Option ℚ
  priceSell : ℚ
  deltaTime : ℚ
deriving DecidableEq, Repr

/-- `main.py` line 42: `action = "buy" if signal_dict.get("price_buy") else "sell"`. -/
def Signal.action (s : Signal) : String :=
  if s.priceBuy.isSome then "buy" else "sell"

/-- `main.py` line 43: the price used for the decision. -/
def Signal.price (s : Signal) : ℚ :=
  match s.priceBuy with
  | some p => p
  | none => s.priceSell

/-- The responses of the external collaborators during one decision:
management service (`boundActualSignal` is the `BOUND_ACTUAL_SIGNAL`
environment value in hours, `priceLimit`, `systemStatus`,
`numAvailableLots`), the exchange balances read at `main.py` line 62 and
line 117, and the outcomes of the fallible calls: `buyTradeQty = some q`
means the buy `make_trade` succeeds returning quantity `q`, `none` means
it raises; `sellTradeOk` likewise for the sell order; `postSellOk` covers
the balance re-fetch and fake-balance write after the sell commit. -/
structure Env where
  boundActualSignal : ℚ
  priceLimit : ℚ
  systemStatus : String
  numAvailableLots : Nat
  realBalanceBefore : ℚ
  realBalanceAfter : ℚ
  buyTradeQty : Option ℚ
  sellTradeOk : Bool
  postSellOk : Bool
deriving Repr

/-- Default of the `BOUND_ACTUAL_SIGNAL` environment variable
(`main.py` line 49): `0.5` hours. -/
def BOUND_ACTUAL_SIGNAL_default : ℚ := 1 / 2

/-- The network and database calls `process_trade` performs, in order. -/
inductive ExtCall
  | getPriceLimit
  | getRealBalance
  | getSystemStatus
  | dbReadSymbols
  | getNumAvailableLots
  | dbCountLots
  | dbQtySymbol
  | makeTrade
  | dbCommit
  | getRealBalanceAfter
  | getFakeBalance
  | setFakeBalance
deriving DecidableEq, Repr

/-- The terminal outcome of one `process_trade` decision, one
constructor per `return` / fall-through / exception path of
`main.py` lines 40-124. -/
inductive Outcome
  | invalidSignal
  | staleBuy
  | staleSell
  | highPrice
  | statusSkip
  | capacityExceeded
  | alreadyBought
  | notBought
  | execError
  | buyDone
  | sellDone
  | sellPostFail
deriving DecidableEq, Repr

/-- `process_trade` (`main.py` lines 27-124), returning the ledger and
control state after the decision, its terminal outcome, and the trace of
external calls it made, in program order.  Database writes take effect
only on the paths that reach `db_conn.commit()`; an exception raised by
`make_trade` jumps to the `except` handler before any write, leaving
state unchanged (`execError`).  On a sell, after the commit the code
re-reads the real balance, reads `fake_balance`, and writes
`fake_balance + (new_balance - old_balance)`; if those post-commit calls
fail, the exception handler leaves `fake_balance` unchanged
(`sellPostFail`). -/
def process_trade (sig : Signal) (env : Env) (st : LedgerState) :
    LedgerState × Outcome × List ExtCall :=
  let action := sig.action
  let price := sig.price
  if sig.symbol = "" then (st, .invalidSignal, [])
  else if action = "buy" ∧ sig.deltaTime > env.boundActualSignal * 60 * 60 then
    (st, .staleBuy, [])
  else if action = "sell" ∧ sig.deltaTime > 24 * 60 * 60 then
    (st, .staleSell, [])
  else if price > env.priceLimit then
    (st, .highPrice, [.getPriceLimit])
  else
    let pre : List ExtCall :=
      [.getPriceLimit, .getRealBalance, .getSystemStatus, .dbReadSymbols]
    let symbolsActive := get_symbols_active_lots st
    if action = "buy" ∧ env.systemStatus = "enable" then
      let pre2 := pre ++ [.getNumAvailableLots, .dbCountLots]
      if get_count_lots st ≥ env.numAvailableLots then
        (st, .capacityExceeded, pre2)
      else if sig.symbol ∈ symbolsActive then
        (st, .alreadyBought, pre2)
      else
        match env.buyTradeQty with
        | none => (st, .execError, pre2 ++ [.makeTrade])
        | some qty =>
          let st1 := create_lot st sig.symbol qty price
          let st2 := create_history_lot st1 "buy" sig.symbol qty price
          (st2, .buyDone, pre2 ++ [.makeTrade, .dbCommit])
    else if action = "sell" ∧ (env.systemStatus = "enable" ∨ env.systemStatus = "sell") then
      if sig.symbol ∉ symbolsActive then
        (st, .notBought, pre)
      else
        let qty := get_qty_symbol st sig.symbol
        if env.sellTradeOk = false then
          (st, .execError, pre ++ [.dbQtySymbol, .makeTrade])
        else
          let st1 := delete_lot st sig.symbol
          let st2 := create_history_lot st1 "sell" sig.symbol qty price
          if env.postSellOk = false then
            (st2, .sellPostFail, pre ++ [.dbQtySymbol, .makeTrade, .dbCommit])
          else
            let newFake := st.fakeBalance + (env.realBalanceAfter - env.realBalanceBefore)
            ({ st2 with fakeBalance := newFake }, .sellDone,
              pre ++ [.dbQtySymbol, .makeTrade, .dbCommit,
                .getRealBalanceAfter, .getFakeBalance, .setFakeBalance])
    else
      (st, .statusSkip, pre)

/-- Process a whole sequence of signals, threading the ledger state. -/
def processAll (sigs : List (Signal × Env)) (st : LedgerState) : LedgerState :=
  sigs.foldl (fun s p => (process_trade p.1 p.2 s).1) st

/-! ## Execution gateway with retry
(`trading-system/agents/trading_agent.py`) -/

/-- `TradingAgent.__init__` line 26: `self.retry_attempts = 3`. -/
def retry_attempts : Nat := 3

/-- `TradingAgent.__init__` line 27: `self.retry_delay = 1  # seconds`. -/
def retry_delay : Nat := 1

/-- Result of `_execute_order_with_retry`: how many placement attempts
were made and how many `sleep(retry_delay)` calls occurred; `noAttempt`
is the implicit `None` return when the `while` guard is false at entry
(`max_retries = 0`). -/
inductive RetryOutcome
  | success (attempts sleeps : Nat)
  | failure (attempts sleeps : Nat)
  | noAttempt
deriving DecidableEq, Repr

/-- Attempts made by a `RetryOutcome`. -/
def RetryOutcome.numAttempts : RetryOutcome → Nat
  | .success a _ => a
  | .failure a _ => a
  | .noAttempt => 0

/-- Whether a `RetryOutcome` reports success. -/
def RetryOutcome.isSuccess : RetryOutcome → Bool
  | .success _ _ => true
  | _ => false

/-- The `while retries < max_retries` loop of `_execute_order_with_retry`
(`trading_agent.py` lines 137-159).  `attempt i` tells whether the
`place_order` call of iteration `i` succeeds; a failed `result.success`
and a raised exception follow the same arm, so one boolean per attempt
suffices.  Each failed attempt increments `retries`; when
`retries < max_retries` still holds the loop sleeps and retries,
otherwise it returns failure. -/
def executeOrderWithRetryAux (attempt : Nat → Bool) (maxRetries : Nat)
    (retries sleeps : Nat) : RetryOutcome :=
  if retries < maxRetries then
    if attempt retries then .success (retries + 1) sleeps
    else if retries + 1 < maxRetries then
      executeOrderWithRetryAux attempt maxRetries (retries + 1) (sleeps + 1)
    else .failure (retries + 1) sleeps
  else .noAttempt
termination_by maxRetries - retries
decreasing_by omega

/-- `_execute_order_with_retry(order_data, max_retries)` entered with
`retries = 0` and no sleeps performed. -/
def executeOrderWithRetry (attempt : Nat → Bool) (maxRetries : Nat) : RetryOutcome :=
  executeOrderWithRetryAux attempt maxRetries 0 0

/-- The tail of `execute_trade` (`trading_agent.py` lines 117-131): on a
failed execution result the method returns before the callback; on
success the execution callback — the ledger update hook — runs exactly
once.  Returns the number of callback invocations. -/
def executeTradeLedgerUpdates (attempt : Nat → Bool) : Nat :=
  if (executeOrderWithRetry attempt retry_attempts).isSuccess then 1 else 0

/-! ## Helper lemmas on the rounding primitive -/

/-- Round-half-to-even lands within half a unit of its argument. -/
lemma pythonRoundInt_abs_sub_le (y : ℚ) : |(pythonRoundInt y : ℚ) - y| ≤ 1 / 2 := by
  unfold pythonRoundInt
  have hf : ((⌊y⌋ : ℤ) : ℚ) ≤ y := Int.floor_le y
  have hlt : y < (⌊y⌋ : ℚ) + 1 := Int.lt_floor_add_one y
  split_ifs with h1 h2 h3 <;>
    (rw [abs_le]; push_cast; constructor <;> linarith)

/-- Round-half-to-even of a nonpositive number is nonpositive. -/
lemma pythonRoundInt_nonpos {y : ℚ} (hy : y ≤ 0) : pythonRoundInt y ≤ 0 := by
  unfold pythonRoundInt
  have hf : ((⌊y⌋ : ℤ) : ℚ) ≤ y := Int.floor_le y
  have hf0 : ⌊y⌋ ≤ 0 := by
    have h := Int.floor_mono hy
    simpa using h
  split_ifs with h1 h2 h3
  · exact hf0
  · have hq : ((⌊y⌋ : ℤ) : ℚ) < -(1 / 2) := by linarith
    have hneg : ⌊y⌋ < 0 := by
      by_contra hge
      push_neg at hge
      have : (0 : ℚ) ≤ ((⌊y⌋ : ℤ) : ℚ) := by exact_mod_cast hge
      linarith
    omega
  · exact hf0
  · have heq : y - ((⌊y⌋ : ℤ) : ℚ) = 1 / 2 := le_antisymm (not_lt.mp h2) (not_lt.mp h1)
    have hq : ((⌊y⌋ : ℤ) : ℚ) ≤ -(1 / 2) := by linarith
    have hneg : ⌊y⌋ < 0 := by
      by_contra hge
      push_neg at hge
      have : (0 : ℚ) ≤ ((⌊y⌋ : ℤ) : ℚ) := by exact_mod_cast hge
      linarith
    omega

/-- `pythonRound` of a nonpositive number is nonpositive. -/
lemma pythonRound_nonpos {x : ℚ} {p : Nat} (hx : x ≤ 0) : pythonRound x p ≤ 0 := by
  unfold pythonRound
  have h10 : (0 : ℚ) < 10 ^ p := by positivity
  have hy : x * 10 ^ p ≤ 0 := mul_nonpos_of_nonpos_of_nonneg hx h10.le
  have hr : pythonRoundInt (x * 10 ^ p) ≤ 0 := pythonRoundInt_nonpos hy
  have hrq : ((pythonRoundInt (x * 10 ^ p) : ℤ) : ℚ) ≤ 0 := by exact_mod_cast hr
  exact div_nonpos_of_nonpos_of_nonneg hrq h10.le

/-! ## C3 -/

/-- C3 counterexample.  With a held balance of `0`, limits
`max_qty = 100`, `min_qty = 0.01`, `qty_step = "0.01"`,
`min_notional = 1`, fake balance `2.019`, one available lot and price
`1`, the raw quantity is `2.019`, yet `calc_qty_symbol` resolves
`2.02 = 101/50`: the Python `round` rounded the quantity up, past the
raw value, so the resolver does not round down to a step multiple that
never exceeds the raw quantity. -/
theorem calc_qty_symbol_rounds_up_cex :
    calc_qty_symbol 0 100 (1 / 100) "0.01" 1 (2019 / 1000) 1 1 = 101 / 50 ∧
      (2019 / 1000 : ℚ) < 101 / 50 := by
  have hp : precisionOfStep "0.01" = 2 := by decide
  constructor
  · unfold calc_qty_symbol pythonRound pythonRoundInt
    rw [hp]
    norm_num
  · norm_num

/-- C3 amended: the step-size rounding of the quantity resolver is the
Python `round` at `p` decimal digits (`p` taken from the step string),
i.e. round half to even: the rounded quantity is an integer multiple of
`10 ^ (-p)` and lies within half such a unit of the raw quantity — on
either side, so it may exceed the raw quantity. -/
theorem pythonRound_step_multiple_and_close (x : ℚ) (p : Nat) :
    ∃ k : ℤ, pythonRound x p = (k : ℚ) / 10 ^ p ∧
      |pythonRound x p - x| ≤ 1 / (2 * 10 ^ p) := by
  refine ⟨pythonRoundInt (x * 10 ^ p), rfl, ?_⟩
  have h10 : (0 : ℚ) < 10 ^ p := by positivity
  have key : pythonRound x p - x =
      (((pythonRoundInt (x * 10 ^ p) : ℤ) : ℚ) - x * 10 ^ p) / 10 ^ p := by
    unfold pythonRound
    field_simp
    ring
  rw [key, abs_div, abs_of_pos h10, div_le_iff₀ h10]
  have h := pythonRoundInt_abs_sub_le (x * 10 ^ p)
  calc |((pythonRoundInt (x * 10 ^ p) : ℤ) : ℚ) - x * 10 ^ p| ≤ 1 / 2 := h
    _ = 1 / (2 * 10 ^ p) * 10 ^ p := by field_simp

/-! ## C8 -/

/-- C8: whenever the exchange limits are sane (`0 < price`,
`0 < min_qty ≤ max_qty`, `0 ≤ min_notional`), the resolved quantity lies
in `[0, max_qty]`, and when the held balance is at least the
capital-based raw quantity the result is exactly `0`, never negative. -/
theorem calc_qty_symbol_range (held maxQty minQty : ℚ) (step : String) (minOrder : ℤ)
    (fake numLots price : ℚ)
    (hp : 0 < price) (hmin : 0 < minQty) (hno : 0 ≤ minOrder) (hmm : minQty ≤ maxQty) :
    0 ≤ calc_qty_symbol held maxQty minQty step minOrder fake numLots price ∧
    calc_qty_symbol held maxQty minQty step minOrder fake numLots price ≤ maxQty ∧
    (fake / numLots / price ≤ held →
      calc_qty_symbol held maxQty minQty step minOrder fake numLots price = 0) := by
  have hmax : (0 : ℚ) < maxQty := lt_of_lt_of_le hmin hmm
  have hno2 : (0 : ℚ) ≤ (minOrder : ℚ) := by exact_mod_cast hno
  simp only [calc_qty_symbol]
  set q := pythonRound (fake / numLots / price - held) (precisionOfStep step) with hqdef
  split_ifs with h1 h2
  · exact ⟨le_refl 0, hmax.le, fun _ => rfl⟩
  · refine ⟨hmax.le, le_refl maxQty, fun hraw => ?_⟩
    have hq0 : q ≤ 0 := pythonRound_nonpos (by linarith)
    linarith
  · have h0q : 0 ≤ q := by
      by_contra hneg
      push_neg at hneg
      apply h1
      have hqp : q * price < 0 := mul_neg_of_neg_of_pos hneg hp
      exact ⟨by linarith, by linarith⟩
    refine ⟨h0q, not_lt.mp h2, fun hraw => ?_⟩
    have hq0 : q ≤ 0 := pythonRound_nonpos (by linarith)
    linarith

/-- C8 witness: Scenario A inputs (capital 1000, 5 lots, price 100, no
held balance, limits `min_qty = 0.01`, `max_qty = 100`, step `"0.01"`,
`min_notional = 10`). -/
theorem calc_qty_symbol_range_witness :
    (0 : ℚ) < 100 ∧ (0 : ℚ) < 1 / 100 ∧ (0 : ℤ) ≤ 10 ∧ (1 / 100 : ℚ) ≤ 100 ∧
    (0 ≤ calc_qty_symbol 0 100 (1 / 100) "0.01" 10 1000 5 100 ∧
      calc_qty_symbol 0 100 (1 / 100) "0.01" 10 1000 5 100 ≤ 100 ∧
      ((1000 : ℚ) / 5 / 100 ≤ 0 →
        calc_qty_symbol 0 100 (1 / 100) "0.01" 10 1000 5 100 = 0)) :=
  ⟨by norm_num, by norm_num, by norm_num, by norm_num,
    calc_qty_symbol_range 0 100 (1 / 100) "0.01" 10 1000 5 100
      (by norm_num) (by norm_num) (by norm_num) (by norm_num)⟩

/-! ## C9 -/

/-- C9: when the rounded raw quantity is below the minimum notional and
below the minimum quantity, the resolver returns exactly `0`; otherwise
it clamps the rounded raw quantity to `max_qty` when it exceeds it and
returns it unchanged when not. -/
theorem calc_qty_symbol_boundary (held maxQty minQty : ℚ) (step : String) (minOrder : ℤ)
    (fake numLots price : ℚ) :
    (pythonRound (fake / numLots / price - held) (precisionOfStep step) * price <
          (minOrder : ℚ) ∧
        pythonRound (fake / numLots / price - held) (precisionOfStep step) < minQty →
      calc_qty_symbol held maxQty minQty step minOrder fake numLots price = 0) ∧
    (¬(pythonRound (fake / numLots / price - held) (precisionOfStep step) * price <
          (minOrder : ℚ) ∧
        pythonRound (fake / numLots / price - held) (precisionOfStep step) < minQty) →
      calc_qty_symbol held maxQty minQty step minOrder fake numLots price =
        if pythonRound (fake / numLots / price - held) (precisionOfStep step) > maxQty
        then maxQty
        else pythonRound (fake / numLots / price - held) (precisionOfStep step)) := by
  constructor
  · intro h
    simp only [calc_qty_symbol]
    rw [if_pos h]
  · intro h
    simp only [calc_qty_symbol]
    rw [if_neg h]

/-- C9 witness: with zero capital the rounded raw quantity is `0`, which
is below both thresholds, so the resolver returns exactly `0`. -/
theorem calc_qty_symbol_boundary_witness :
    (pythonRound ((0 : ℚ) / 1 / 1 - 0) (precisionOfStep "0.01") * 1 < ((10 : ℤ) : ℚ) ∧
      pythonRound ((0 : ℚ) / 1 / 1 - 0) (precisionOfStep "0.01") < 1 / 100) ∧
    calc_qty_symbol 0 100 (1 / 100) "0.01" 10 0 1 1 = 0 := by
  have h : pythonRound ((0 : ℚ) / 1 / 1 - 0) (precisionOfStep "0.01") * 1 < ((10 : ℤ) : ℚ) ∧
      pythonRound ((0 : ℚ) / 1 / 1 - 0) (precisionOfStep "0.01") < 1 / 100 := by
    have hz : pythonRound ((0 : ℚ) / 1 / 1 - 0) (precisionOfStep "0.01") = 0 := by
      unfold pythonRound pythonRoundInt
      norm_num
    rw [hz]
    norm_num
  exact ⟨h, (calc_qty_symbol_boundary 0 100 (1 / 100) "0.01" 10 0 1 1).1 h⟩

/-! ## Branch lemmas for `process_trade`

One lemma per terminal path of `process_trade`, obtained by resolving
the guards in program order. -/

lemma pt_invalid (sig : Signal) (env : Env) (st : LedgerState) (hA : sig.symbol = "") :
    process_trade sig env st = (st, Outcome.invalidSignal, []) := by
  simp only [process_trade]
  rw [if_pos hA]

lemma pt_staleBuy (sig : Signal) (env : Env) (st : LedgerState) (hA : ¬ sig.symbol = "")
    (hB : sig.action = "buy" ∧ sig.deltaTime > env.boundActualSignal * 60 * 60) :
    process_trade sig env st = (st, Outcome.staleBuy, []) := by
  simp only [process_trade]
  rw [if_neg hA, if_pos hB]

lemma pt_staleSell (sig : Signal) (env : Env) (st : LedgerState) (hA : ¬ sig.symbol = "")
    (hB : ¬(sig.action = "buy" ∧ sig.deltaTime > env.boundActualSignal * 60 * 60))
    (hC : sig.action = "sell" ∧ sig.deltaTime > 24 * 60 * 60) :
    process_trade sig env st = (st, Outcome.staleSell, []) := by
  simp only [process_trade]
  rw [if_neg hA, if_neg hB, if_pos hC]

lemma pt_highPrice (sig : Signal) (env : Env) (st : LedgerState) (hA : ¬ sig.symbol = "")
    (hB : ¬(sig.action = "buy" ∧ sig.deltaTime > env.boundActualSignal * 60 * 60))
    (hC : ¬(sig.action = "sell" ∧ sig.deltaTime > 24 * 60 * 60))
    (hD : sig.price > env.priceLimit) :
    process_trade sig env st = (st, Outcome.highPrice, [ExtCall.getPriceLimit]) := by
  simp only [process_trade]
  rw [if_neg hA, if_neg hB, if_neg hC, if_pos hD]

lemma pt_capacity (sig : Signal) (env : Env) (st : LedgerState) (hA : ¬ sig.symbol = "")
    (hB : ¬(sig.action = "buy" ∧ sig.deltaTime > env.boundActualSignal * 60 * 60))
    (hC : ¬(sig.action = "sell" ∧ sig.deltaTime > 24 * 60 * 60))
    (hD : ¬ sig.price > env.priceLimit)
    (hE : sig.action = "buy" ∧ env.systemStatus = "enable")
    (hF : get_count_lots st ≥ env.numAvailableLots) :
    process_trade sig env st =
      (st, Outcome.capacityExceeded,
        [ExtCall.getPriceLimit, ExtCall.getRealBalance, ExtCall.getSystemStatus,
          ExtCall.dbReadSymbols, ExtCall.getNumAvailableLots, ExtCall.dbCountLots]) := by
  simp only [process_trade]
  rw [if_neg hA, if_neg hB, if_neg hC, if_neg hD, if_pos hE, if_pos hF]
  rfl

lemma pt_alreadyBought (sig : Signal) (env : Env) (st : LedgerState) (hA : ¬ sig.symbol = "")
    (hB : ¬(sig.action = "buy" ∧ sig.deltaTime > env.boundActualSignal * 60 * 60))
    (hC : ¬(sig.action = "sell" ∧ sig.deltaTime > 24 * 60 * 60))
    (hD : ¬ sig.price > env.priceLimit)
    (hE : sig.action = "buy" ∧ env.systemStatus = "enable")
    (hF : ¬ get_count_lots st ≥ env.numAvailableLots)
    (hG : sig.symbol ∈ get_symbols_active_lots st) :
    process_trade sig env st =
      (st, Outcome.alreadyBought,
        [ExtCall.getPriceLimit, ExtCall.getRealBalance, ExtCall.getSystemStatus,
          ExtCall.dbReadSymbols, ExtCall.getNumAvailableLots, ExtCall.dbCountLots]) := by
  simp only [process_trade]
  rw [if_neg hA, if_neg hB, if_neg hC, if_neg hD, if_pos hE, if_neg hF, if_pos hG]
  rfl

lemma pt_buyFail (sig : Signal) (env : Env) (st : LedgerState) (hA : ¬ sig.symbol = "")
    (hB : ¬(sig.action = "buy" ∧ sig.deltaTime > env.boundActualSignal * 60 * 60))
    (hC : ¬(sig.action = "sell" ∧ sig.deltaTime > 24 * 60 * 60))
    (hD : ¬ sig.price > env.priceLimit)
    (hE : sig.action = "buy" ∧ env.systemStatus = "enable")
    (hF : ¬ get_count_lots st ≥ env.numAvailableLots)
    (hG : ¬ sig.symbol ∈ get_symbols_active_lots st)
    (hH : env.buyTradeQty = none) :
    process_trade sig env st =
      (st, Outcome.execError,
        [ExtCall.getPriceLimit, ExtCall.getRealBalance, ExtCall.getSystemStatus,
          ExtCall.dbReadSymbols, ExtCall.getNumAvailableLots, ExtCall.dbCountLots,
          ExtCall.makeTrade]) := by
  simp only [process_trade]
  rw [if_neg hA, if_neg hB, if_neg hC, if_neg hD, if_pos hE, if_neg hF, if_neg hG, hH]
  rfl

lemma pt_buyDone (sig : Signal) (env : Env) (st : LedgerState) (qty : ℚ)
    (hA : ¬ sig.symbol = "")
    (hB : ¬(sig.action = "buy" ∧ sig.deltaTime > env.boundActualSignal * 60 * 60))
    (hC : ¬(sig.action = "sell" ∧ sig.deltaTime > 24 * 60 * 60))
    (hD : ¬ sig.price > env.priceLimit)
    (hE : sig.action = "buy" ∧ env.systemStatus = "enable")
    (hF : ¬ get_count_lots st ≥ env.numAvailableLots)
    (hG : ¬ sig.symbol ∈ get_symbols_active_lots st)
    (hH : env.buyTradeQty = some qty) :
    process_trade sig env st =
      (create_history_lot (create_lot st sig.symbol qty sig.price) "buy" sig.symbol qty
          sig.price,
        Outcome.buyDone,
        [ExtCall.getPriceLimit, ExtCall.getRealBalance, ExtCall.getSystemStatus,
          ExtCall.dbReadSymbols, ExtCall.getNumAvailableLots, ExtCall.dbCountLots,
          ExtCall.makeTrade, ExtCall.dbCommit]) := by
  simp only [process_trade]
  rw [if_neg hA, if_neg hB, if_neg hC, if_neg hD, if_pos hE, if_neg hF, if_neg hG, hH]
  rfl

lemma pt_statusSkip (sig : Signal) (env : Env) (st : LedgerState) (hA : ¬ sig.symbol = "")
    (hB : ¬(sig.action = "buy" ∧ sig.deltaTime > env.boundActualSignal * 60 * 60))
    (hC : ¬(sig.action = "sell" ∧ sig.deltaTime > 24 * 60 * 60))
    (hD : ¬ sig.price > env.priceLimit)
    (hE : ¬(sig.action = "buy" ∧ env.systemStatus = "enable"))
    (hI : ¬(sig.action = "sell" ∧ (env.systemStatus = "enable" ∨ env.systemStatus = "sell"))) :
    process_trade sig env st =
      (st, Outcome.statusSkip,
        [ExtCall.getPriceLimit, ExtCall.getRealBalance, ExtCall.getSystemStatus,
          ExtCall.dbReadSymbols]) := by
  simp only [process_trade]
  rw [if_neg hA, if_neg hB, if_neg hC, if_neg hD, if_neg hE, if_neg hI]

lemma pt_notBought (sig : Signal) (env : Env) (st : LedgerState) (hA : ¬ sig.symbol = "")
    (hB : ¬(sig.action = "buy" ∧ sig.deltaTime > env.boundActualSignal * 60 * 60))
    (hC : ¬(sig.action = "sell" ∧ sig.deltaTime > 24 * 60 * 60))
    (hD : ¬ sig.price > env.priceLimit)
    (hE : ¬(sig.action = "buy" ∧ env.systemStatus = "enable"))
    (hI : sig.action = "sell" ∧ (env.systemStatus = "enable" ∨ env.systemStatus = "sell"))
    (hJ : ¬ sig.symbol ∈ get_symbols_active_lots st) :
    process_trade sig env st =
      (st, Outcome.notBought,
        [ExtCall.getPriceLimit, ExtCall.getRealBalance, ExtCall.getSystemStatus,
          ExtCall.dbReadSymbols]) := by
  simp only [process_trade]
  rw [if_neg hA, if_neg hB, if_neg hC, if_neg hD, if_neg hE, if_pos hI, if_pos hJ]

lemma pt_sellFail (sig : Signal) (env : Env) (st : LedgerState) (hA : ¬ sig.symbol = "")
    (hB : ¬(sig.action = "buy" ∧ sig.deltaTime > env.boundActualSignal * 60 * 60))
    (hC : ¬(sig.action = "sell" ∧ sig.deltaTime > 24 * 60 * 60))
    (hD : ¬ sig.price > env.priceLimit)
    (hE : ¬(sig.action = "buy" ∧ env.systemStatus = "enable"))
    (hI : sig.action = "sell" ∧ (env.systemStatus = "enable" ∨ env.systemStatus = "sell"))
    (hG : sig.symbol ∈ get_symbols_active_lots st)
    (hK : env.sellTradeOk = false) :
    process_trade sig env st =
      (st, Outcome.execError,
        [ExtCall.getPriceLimit, ExtCall.getRealBalance, ExtCall.getSystemStatus,
          ExtCall.dbReadSymbols, ExtCall.dbQtySymbol, ExtCall.makeTrade]) := by
  simp only [process_trade]
  rw [if_neg hA, if_neg hB, if_neg hC, if_neg hD, if_neg hE, if_pos hI,
    if_neg (not_not_intro hG), if_pos hK]
  rfl

lemma pt_sellPostFail (sig : Signal) (env : Env) (st : LedgerState) (hA : ¬ sig.symbol = "")
    (hB : ¬(sig.action = "buy" ∧ sig.deltaTime > env.boundActualSignal * 60 * 60))
    (hC : ¬(sig.action = "sell" ∧ sig.deltaTime > 24 * 60 * 60))
    (hD : ¬ sig.price > env.priceLimit)
    (hE : ¬(sig.action = "buy" ∧ env.systemStatus = "enable"))
    (hI : sig.action = "sell" ∧ (env.systemStatus = "enable" ∨ env.systemStatus = "sell"))
    (hG : sig.symbol ∈ get_symbols_active_lots st)
    (hK : env.sellTradeOk = true)
    (hL : env.postSellOk = false) :
    process_trade sig env st =
      (create_history_lot (delete_lot st sig.symbol) "sell" sig.symbol
          (get_qty_symbol st sig.symbol) sig.price,
        Outcome.sellPostFail,
        [ExtCall.getPriceLimit, ExtCall.getRealBalance, ExtCall.getSystemStatus,
          ExtCall.dbReadSymbols, ExtCall.dbQtySymbol, ExtCall.makeTrade,
          ExtCall.dbCommit]) := by
  simp only [process_trade]
  rw [if_neg hA, if_neg hB, if_neg hC, if_neg hD, if_neg hE, if_pos hI,
    if_neg (not_not_intro hG), if_neg (by simp [hK]), if_pos hL]
  rfl

lemma pt_sellDone (sig : Signal) (env : Env) (st : LedgerState) (hA : ¬ sig.symbol = "")
    (hB : ¬(sig.action = "buy" ∧ sig.deltaTime > env.boundActualSignal * 60 * 60))
    (hC : ¬(sig.action = "sell" ∧ sig.deltaTime > 24 * 60 * 60))
    (hD : ¬ sig.price > env.priceLimit)
    (hE : ¬(sig.action = "buy" ∧ env.systemStatus = "enable"))
    (hI : sig.action = "sell" ∧ (env.systemStatus = "enable" ∨ env.systemStatus = "sell"))
    (hG : sig.symbol ∈ get_symbols_active_lots st)
    (hK : env.sellTradeOk = true)
    (hL : env.postSellOk = true) :
    process_trade sig env st =
      ({ create_history_lot (delete_lot st sig.symbol) "sell" sig.symbol
            (get_qty_symbol st sig.symbol) sig.price with
          fakeBalance := st.fakeBalance + (env.realBalanceAfter - env.realBalanceBefore) },
        Outcome.sellDone,
        [ExtCall.getPriceLimit, ExtCall.getRealBalance, ExtCall.getSystemStatus,
          ExtCall.dbReadSymbols, ExtCall.dbQtySymbol, ExtCall.makeTrade, ExtCall.dbCommit,
          ExtCall.getRealBalanceAfter, ExtCall.getFakeBalance, ExtCall.setFakeBalance]) := by
  simp only [process_trade]
  rw [if_neg hA, if_neg hB, if_neg hC, if_neg hD, if_neg hE, if_pos hI,
    if_neg (not_not_intro hG), if_neg (by simp [hK]), if_neg (by simp [hL])]
  rfl

/-! ## Counting lemmas for the active-lots table -/

lemma countSymbol_create_history (st : LedgerState) (a s : String) (q p : ℚ) (t : String) :
    countSymbol (create_history_lot st a s q p) t = countSymbol st t := rfl

lemma countSymbol_setFake (st : LedgerState) (fb : ℚ) (t : String) :
    countSymbol { st with fakeBalance := fb } t = countSymbol st t := rfl

lemma countSymbol_create_lot (st : LedgerState) (s t : String) (q p : ℚ) :
    countSymbol (create_lot st s q p) t =
      countSymbol st t + (if s = t then 1 else 0) := by
  unfold countSymbol create_lot
  simp only [List.filter_append, List.length_append]
  congr 1
  simp only [List.filter]
  split_ifs with h <;> simp_all

lemma countSymbol_delete_le (st : LedgerState) (s t : String) :
    countSymbol (delete_lot st s) t ≤ countSymbol st t := by
  unfold countSymbol delete_lot
  exact List.Sublist.length_le (List.Sublist.filter _ (List.filter_sublist _))

lemma countSymbol_notmem (st : LedgerState) (s : String)
    (hs : s ∉ get_symbols_active_lots st) : countSymbol st s = 0 := by
  unfold countSymbol
  rw [List.filter_eq_nil_iff.mpr, List.length_nil]
  intro l hl hls
  exact hs (List.mem_map.mpr ⟨l, hl, by simpa using hls⟩)

/-! ## Case analysis of a whole decision -/

/-- Every `process_trade` decision either leaves the state untouched
(with an outcome other than the three committed ones), commits a buy
(lot insert + history append, only when the symbol had no active lot),
or commits a sell (lot delete + history append), the latter with the
fake-balance update exactly when the outcome is `sellDone`. -/
lemma process_trade_cases (sig : Signal) (env : Env) (st : LedgerState) :
    (∃ o tr, process_trade sig env st = (st, o, tr) ∧
        o ≠ Outcome.buyDone ∧ o ≠ Outcome.sellDone ∧ o ≠ Outcome.sellPostFail) ∨
    (∃ qty tr, sig.symbol ∉ get_symbols_active_lots st ∧
      process_trade sig env st =
        (create_history_lot (create_lot st sig.symbol qty sig.price) "buy" sig.symbol qty
            sig.price,
          Outcome.buyDone, tr)) ∨
    (∃ tr, process_trade sig env st =
      (create_history_lot (delete_lot st sig.symbol) "sell" sig.symbol
          (get_qty_symbol st sig.symbol) sig.price,
        Outcome.sellPostFail, tr)) ∨
    (∃ tr, process_trade sig env st =
      ({ create_history_lot (delete_lot st sig.symbol) "sell" sig.symbol
            (get_qty_symbol st sig.symbol) sig.price with
          fakeBalance := st.fakeBalance + (env.realBalanceAfter - env.realBalanceBefore) },
        Outcome.sellDone, tr)) := by
  by_cases hA : sig.symbol = ""
  · exact Or.inl ⟨_, _, pt_invalid sig env st hA, by decide, by decide, by decide⟩
  by_cases hB : sig.action = "buy" ∧ sig.deltaTime > env.boundActualSignal * 60 * 60
  · exact Or.inl ⟨_, _, pt_staleBuy sig env st hA hB, by decide, by decide, by decide⟩
  by_cases hC : sig.action = "sell" ∧ sig.deltaTime > 24 * 60 * 60
  · exact Or.inl ⟨_, _, pt_staleSell sig env st hA hB hC, by decide, by decide, by decide⟩
  by_cases hD : sig.price > env.priceLimit
  · exact Or.inl ⟨_, _, pt_highPrice sig env st hA hB hC hD, by decide, by decide, by decide⟩
  by_cases hE : sig.action = "buy" ∧ env.systemStatus = "enable"
  · by_cases hF : get_count_lots st ≥ env.numAvailableLots
    · exact Or.inl ⟨_, _, pt_capacity sig env st hA hB hC hD hE hF,
        by decide, by decide, by decide⟩
    by_cases hG : sig.symbol ∈ get_symbols_active_lots st
    · exact Or.inl ⟨_, _, pt_alreadyBought sig env st hA hB hC hD hE hF hG,
        by decide, by decide, by decide⟩
    rcases hH : env.buyTradeQty with _ | qty
    · exact Or.inl ⟨_, _, pt_buyFail sig env st hA hB hC hD hE hF hG hH,
        by decide, by decide, by decide⟩
    · exact Or.inr (Or.inl ⟨qty, _, hG,
        pt_buyDone sig env st qty hA hB hC hD hE hF hG hH⟩)
  by_cases hI : sig.action = "sell" ∧ (env.systemStatus = "enable" ∨ env.systemStatus = "sell")
  · by_cases hG : sig.symbol ∈ get_symbols_active_lots st
    · rcases hK : env.sellTradeOk with _ | _
      · exact Or.inl ⟨_, _, pt_sellFail sig env st hA hB hC hD hE hI hG hK,
          by decide, by decide, by decide⟩
      · rcases hL : env.postSellOk with _ | _
        · exact Or.inr (Or.inr (Or.inl ⟨_,
            pt_sellPostFail sig env st hA hB hC hD hE hI hG hK hL⟩))
        · exact Or.inr (Or.inr (Or.inr ⟨_,
            pt_sellDone sig env st hA hB hC hD hE hI hG hK hL⟩))
    · exact Or.inl ⟨_, _, pt_notBought sig env st hA hB hC hD hE hI hG,
        by decide, by decide, by decide⟩
  · exact Or.inl ⟨_, _, pt_statusSkip sig env st hA hB hC hD hE hI,
      by decide, by decide, by decide⟩

/-- One `process_trade` decision preserves the per-symbol uniqueness
invariant of the active-lots table. -/
lemma process_trade_preserves_uniqueLots (sig : Signal) (env : Env) (st : LedgerState)
    (h : UniqueLots st) : UniqueLots (process_trade sig env st).1 := by
  rcases process_trade_cases sig env st with ⟨o, tr, heq, -, -, -⟩ |
    ⟨qty, tr, hnm, heq⟩ | ⟨tr, heq⟩ | ⟨tr, heq⟩ <;> rw [heq] <;> intro t
  · exact h t
  · show countSymbol (create_history_lot (create_lot st sig.symbol qty sig.price)
      "buy" sig.symbol qty sig.price) t ≤ 1
    rw [countSymbol_create_history, countSymbol_create_lot]
    by_cases hst : sig.symbol = t
    · subst hst
      rw [countSymbol_notmem st _ hnm]
      simp
    · rw [if_neg hst]
      simpa using h t
  · show countSymbol (create_history_lot (delete_lot st sig.symbol) "sell" sig.symbol
      (get_qty_symbol st sig.symbol) sig.price) t ≤ 1
    rw [countSymbol_create_history]
    exact le_trans (countSymbol_delete_le st _ t) (h t)
  · show countSymbol { create_history_lot (delete_lot st sig.symbol) "sell" sig.symbol
      (get_qty_symbol st sig.symbol) sig.price with
        fakeBalance := st.fakeBalance + (env.realBalanceAfter - env.realBalanceBefore) } t ≤ 1
    rw [countSymbol_setFake, countSymbol_create_history]
    exact le_trans (countSymbol_delete_le st _ t) (h t)

/-! ## C1 -/

/-- C1 counterexample: the storage layer does not enforce uniqueness.
Starting from a ledger that already holds an open lot for `"BTCUSDT"`,
the storage-level insert `create_lot` for the same symbol succeeds (it
is a plain `INSERT`; the `active_lots` DDL has no uniqueness constraint
and no `DuplicateLotError` exists), leaving two open rows for the
symbol. -/
theorem create_lot_duplicate_succeeds_cex :
    countSymbol (create_lot ⟨[⟨"BTCUSDT", 1, 100⟩], [], 0⟩ "BTCUSDT" 2 200) "BTCUSDT" = 2 := by
  decide

/-- C1 amended: after any sequence of processed signals starting from a
ledger satisfying the per-symbol uniqueness invariant (such as the
freshly initialized empty table), at most one open lot exists per
symbol — enforced by the application-level existence check in
`process_trade`, not by the storage layer. -/
theorem processAll_preserves_unique_lots (sigs : List (Signal × Env)) (st : LedgerState)
    (h : UniqueLots st) : UniqueLots (processAll sigs st) := by
  induction sigs generalizing st with
  | nil => simpa [processAll] using h
  | cons p rest ih =>
      simp only [processAll, List.foldl_cons]
      exact ih _ (process_trade_preserves_uniqueLots p.1 p.2 st h)

/-- C1 witness: the empty ledger is duplicate-free and stays so across a
concrete signal sequence containing two buys of the same symbol. -/
theorem processAll_preserves_unique_lots_witness :
    UniqueLots ⟨[], [], 0⟩ ∧
    UniqueLots (processAll
      [(⟨"BTCUSDT", some 2, 0, 0⟩, ⟨1 / 2, 3, "enable", 5, 50, 60, some 1, true, true⟩),
       (⟨"BTCUSDT", some 2, 0, 0⟩, ⟨1 / 2, 3, "enable", 5, 50, 60, some 1, true, true⟩)]
      ⟨[], [], 0⟩) := by
  have h : UniqueLots (⟨[], [], 0⟩ : LedgerState) := by
    intro s
    simp [countSymbol]
  exact ⟨h, processAll_preserves_unique_lots _ _ h⟩

/-! ## C2 -/

/-- C2: over one whole decision, the fake balance either stays unchanged
or — exactly on the `sellDone` outcome, a successfully executed and
committed sell — changes by precisely the exchange balance delta
(balance after the sell minus balance before).  In particular every buy,
skipped, rejected, or failed decision leaves it unchanged. -/
theorem fakeBalance_changes_only_on_successful_sell (sig : Signal) (env : Env)
    (st : LedgerState) :
    (process_trade sig env st).1.fakeBalance = st.fakeBalance ∨
    ((process_trade sig env st).2.1 = Outcome.sellDone ∧
      (process_trade sig env st).1.fakeBalance =
        st.fakeBalance + (env.realBalanceAfter - env.realBalanceBefore)) := by
  rcases process_trade_cases sig env st with ⟨o, tr, heq, -, -, -⟩ |
    ⟨qty, tr, -, heq⟩ | ⟨tr, heq⟩ | ⟨tr, heq⟩
  · left
    rw [heq]
  · left
    rw [heq]
    rfl
  · left
    rw [heq]
    rfl
  · right
    rw [heq]
    exact ⟨rfl, rfl⟩

/-! ## C4 -/

/-- C4 counterexample: a Sell signal (`price_buy` absent, so the decoded
action is `"sell"`) with price `5` above the ceiling `3` is skipped by
the price-ceiling check — the check at `main.py` line 58 runs before the
buy/sell branch — even though an open lot exists and the sell would
otherwise proceed.  This refutes the claim that a Sell signal is never
skipped because its price exceeds the ceiling. -/
theorem sell_skipped_by_price_ceiling_cex :
    Signal.action ⟨"XRPUSDT", none, 5, 0⟩ = "sell" ∧
    process_trade ⟨"XRPUSDT", none, 5, 0⟩ ⟨1 / 2, 3, "enable", 5, 50, 60, none, true, true⟩
        ⟨[⟨"XRPUSDT", 7, 2⟩], [], 100⟩ =
      (⟨[⟨"XRPUSDT", 7, 2⟩], [], 100⟩, Outcome.highPrice, [ExtCall.getPriceLimit]) := by
  refine ⟨rfl, pt_highPrice _ _ _ ?_ ?_ ?_ ?_⟩
  · decide
  · rintro ⟨ha, -⟩
    exact absurd ha (by decide)
  · rintro ⟨-, hd⟩
    norm_num at hd
  · show Signal.price _ > _
    norm_num [Signal.price]

/-- C4 amended: the price-ceiling test applies to both actions.  Any
well-formed, non-stale signal — Buy or Sell — whose price exceeds the
price limit terminates skipped with the high-price outcome, with no
order placed and no ledger mutation. -/
theorem price_ceiling_applies_to_both_actions (sig : Signal) (env : Env) (st : LedgerState)
    (hA : ¬ sig.symbol = "")
    (hB : ¬(sig.action = "buy" ∧ sig.deltaTime > env.boundActualSignal * 60 * 60))
    (hC : ¬(sig.action = "sell" ∧ sig.deltaTime > 24 * 60 * 60))
    (hD : sig.price > env.priceLimit) :
    process_trade sig env st = (st, Outcome.highPrice, [ExtCall.getPriceLimit]) :=
  pt_highPrice sig env st hA hB hC hD

/-- C4 witness: a fresh Sell signal above the ceiling on the empty
ledger. -/
theorem price_ceiling_applies_to_both_actions_witness :
    Signal.action ⟨"ADAUSDT", none, 10, 0⟩ = "sell" ∧
    process_trade ⟨"ADAUSDT", none, 10, 0⟩ ⟨1 / 2, 4, "enable", 5, 0, 0, none, false, false⟩
        ⟨[], [], 0⟩ =
      (⟨[], [], 0⟩, Outcome.highPrice, [ExtCall.getPriceLimit]) := by
  refine ⟨rfl, price_ceiling_applies_to_both_actions _ _ _ ?_ ?_ ?_ ?_⟩
  · decide
  · rintro ⟨ha, -⟩
    exact absurd ha (by decide)
  · rintro ⟨-, hd⟩
    norm_num at hd
  · show Signal.price _ > _
    norm_num [Signal.price]

/-! ## C7 -/

/-- C7: a Buy signal older than the staleness bound (the
`BOUND_ACTUAL_SIGNAL` default of `0.5` hours is exactly 30 minutes) and
a Sell signal older than 24 hours are both rejected with an empty
external-call trace: the staleness check happens before any network call
to the management service or to the exchange. -/
theorem stale_signals_rejected_before_any_network_call (sig : Signal) (env : Env)
    (st : LedgerState) (hA : ¬ sig.symbol = "") :
    (sig.action = "buy" → sig.deltaTime > env.boundActualSignal * 60 * 60 →
      process_trade sig env st = (st, Outcome.staleBuy, [])) ∧
    (sig.action = "sell" → sig.deltaTime > 24 * 60 * 60 →
      process_trade sig env st = (st, Outcome.staleSell, [])) ∧
    BOUND_ACTUAL_SIGNAL_default * 60 * 60 = 30 * 60 := by
  refine ⟨fun ha hd => pt_staleBuy sig env st hA ⟨ha, hd⟩, fun ha hd => ?_,
    by norm_num [BOUND_ACTUAL_SIGNAL_default]⟩
  refine pt_staleSell sig env st hA ?_ ⟨ha, hd⟩
  rintro ⟨hb, -⟩
  rw [ha] at hb
  exact absurd hb (by decide)

/-- C7 witness: a Buy signal observed 1801 seconds ago, one second past
the default 30-minute bound, is rejected with no external calls. -/
theorem stale_signals_rejected_witness :
    ¬ (Signal.mk "BTCUSDT" (some 2) 0 1801).symbol = "" ∧
    Signal.action ⟨"BTCUSDT", some 2, 0, 1801⟩ = "buy" ∧
    (1801 : ℚ) > BOUND_ACTUAL_SIGNAL_default * 60 * 60 ∧
    process_trade ⟨"BTCUSDT", some 2, 0, 1801⟩
        ⟨BOUND_ACTUAL_SIGNAL_default, 3, "enable", 5, 0, 0, none, false, false⟩
        ⟨[], [], 0⟩ =
      (⟨[], [], 0⟩, Outcome.staleBuy, []) := by
  refine ⟨by decide, rfl, by norm_num [BOUND_ACTUAL_SIGNAL_default], ?_⟩
  exact (stale_signals_rejected_before_any_network_call _ _ _ (by decide)).1 rfl
    (by norm_num [BOUND_ACTUAL_SIGNAL_default])

/-! ## C10 -/

/-- C10: on the Buy path, when the number of active lots already reaches
the configured number of available lots, the decision terminates with
the capacity outcome and an unchanged ledger; the trace shows this
happens right after the lot count is read — before the per-symbol
duplicate check (no hypothesis about membership is needed) and before
any quantity resolution or order placement (`makeTrade` is not in the
trace). -/
theorem buy_capacity_gate (sig : Signal) (env : Env) (st : LedgerState)
    (hA : ¬ sig.symbol = "")
    (hact : sig.action = "buy")
    (hB : ¬ sig.deltaTime > env.boundActualSignal * 60 * 60)
    (hD : ¬ sig.price > env.priceLimit)
    (hstat : env.systemStatus = "enable")
    (hF : get_count_lots st ≥ env.numAvailableLots) :
    process_trade sig env st =
      (st, Outcome.capacityExceeded,
        [ExtCall.getPriceLimit, ExtCall.getRealBalance, ExtCall.getSystemStatus,
          ExtCall.dbReadSymbols, ExtCall.getNumAvailableLots, ExtCall.dbCountLots]) ∧
    ExtCall.makeTrade ∉ (process_trade sig env st).2.2 := by
  have hB2 : ¬(sig.action = "buy" ∧ sig.deltaTime > env.boundActualSignal * 60 * 60) := by
    rintro ⟨-, hd⟩
    exact hB hd
  have hC2 : ¬(sig.action = "sell" ∧ sig.deltaTime > 24 * 60 * 60) := by
    rintro ⟨hs, -⟩
    rw [hact] at hs
    exact absurd hs (by decide)
  have hmain := pt_capacity sig env st hA hB2 hC2 hD ⟨hact, hstat⟩ hF
  refine ⟨hmain, ?_⟩
  rw [hmain]
  show ExtCall.makeTrade ∉
    ([ExtCall.getPriceLimit, ExtCall.getRealBalance, ExtCall.getSystemStatus,
      ExtCall.dbReadSymbols, ExtCall.getNumAvailableLots, ExtCall.dbCountLots] : List ExtCall)
  decide

/-- C10 witness: the capacity gate fires even when the signal symbol
already has an active lot — the duplicate check is never reached, the
outcome is the capacity one. -/
theorem buy_capacity_gate_witness :
    "XRPUSDT" ∈ get_symbols_active_lots ⟨[⟨"XRPUSDT", 7, 2⟩], [], 100⟩ ∧
    get_count_lots ⟨[⟨"XRPUSDT", 7, 2⟩], [], 100⟩ ≥ 1 ∧
    process_trade ⟨"XRPUSDT", some 2, 0, 0⟩ ⟨1 / 2, 3, "enable", 1, 0, 0, some 1, true, true⟩
        ⟨[⟨"XRPUSDT", 7, 2⟩], [], 100⟩ =
      (⟨[⟨"XRPUSDT", 7, 2⟩], [], 100⟩, Outcome.capacityExceeded,
        [ExtCall.getPriceLimit, ExtCall.getRealBalance, ExtCall.getSystemStatus,
          ExtCall.dbReadSymbols, ExtCall.getNumAvailableLots, ExtCall.dbCountLots]) := by
  refine ⟨by decide, by decide, ?_⟩
  exact (buy_capacity_gate ⟨"XRPUSDT", some 2, 0, 0⟩
    ⟨1 / 2, 3, "enable", 1, 0, 0, some 1, true, true⟩ ⟨[⟨"XRPUSDT", 7, 2⟩], [], 100⟩
    (by decide) rfl (by norm_num)
    (by show ¬ Signal.price _ > _ ; norm_num [Signal.price]) rfl (by decide)).1

/-! ## Retry-loop lemmas -/

lemma retryAux_attempts_le (att : Nat → Bool) :
    ∀ (n m r s : Nat), m - r ≤ n → (executeOrderWithRetryAux att m r s).numAttempts ≤ m := by
  intro n
  induction n with
  | zero =>
      intro m r s hle
      rw [executeOrderWithRetryAux.eq_def]
      have hnl : ¬ r < m := by omega
      simp [hnl, RetryOutcome.numAttempts]
  | succ n ih =>
      intro m r s hle
      rw [executeOrderWithRetryAux.eq_def]
      by_cases hrm : r < m
      · simp only [hrm, if_true]
        by_cases hatt : att r
        · simp [hatt, RetryOutcome.numAttempts]
          omega
        · simp only [hatt, if_false, Bool.false_eq_true]
          by_cases h2 : r + 1 < m
          · simp only [h2, if_true]
            exact ih m (r + 1) (s + 1) (by omega)
          · simp [h2, RetryOutcome.numAttempts]
            omega
      · simp [hrm, RetryOutcome.numAttempts]

lemma retryAux_all_fail (att : Nat → Bool) (hall : ∀ i, att i = false) :
    ∀ (n m r s : Nat), m - r ≤ n →
      (executeOrderWithRetryAux att m r s).isSuccess = false := by
  intro n
  induction n with
  | zero =>
      intro m r s hle
      rw [executeOrderWithRetryAux.eq_def]
      have hnl : ¬ r < m := by omega
      simp [hnl, RetryOutcome.isSuccess]
  | succ n ih =>
      intro m r s hle
      rw [executeOrderWithRetryAux.eq_def]
      by_cases hrm : r < m
      · simp only [hrm, if_true, hall r, if_false, Bool.false_eq_true]
        by_cases h2 : r + 1 < m
        · simp only [h2, if_true]
          exact ih m (r + 1) (s + 1) (by omega)
        · simp [h2, RetryOutcome.isSuccess]
      · simp [hrm, RetryOutcome.isSuccess]

lemma retry_fail_fail_ok (f : Nat → Bool) (h0 : f 0 = false) (h1 : f 1 = false)
    (h2 : f 2 = true) : executeOrderWithRetry f 3 = RetryOutcome.success 3 2 := by
  unfold executeOrderWithRetry
  rw [executeOrderWithRetryAux.eq_def]
  simp only [show (0 : Nat) < 3 by omega, if_true, h0, Bool.false_eq_true, if_false,
    show (1 : Nat) < 3 by omega]
  rw [executeOrderWithRetryAux.eq_def]
  simp only [show (1 : Nat) < 3 by omega, if_true, h1, Bool.false_eq_true, if_false,
    show (2 : Nat) < 3 by omega]
  rw [executeOrderWithRetryAux.eq_def]
  simp [h2]

/-! ## C6 -/

/-- C6: the execution gateway makes at most `retry_attempts = 3`
placement attempts — a hard ceiling holding for every possible run — and
sleeps `retry_delay = 1` second between consecutive attempts; when
placement fails twice and succeeds on the 3rd attempt the run reports
success after exactly 3 attempts and 2 sleeps, and the ledger-update
callback of `execute_trade` then runs exactly once. -/
theorem retry_bounded_and_third_attempt_completes (f : Nat → Bool)
    (h0 : f 0 = false) (h1 : f 1 = false) (h2 : f 2 = true) :
    executeOrderWithRetry f retry_attempts = RetryOutcome.success 3 2 ∧
    executeTradeLedgerUpdates f = 1 ∧
    retry_delay = 1 ∧
    (∀ g : Nat → Bool,
      (executeOrderWithRetry g retry_attempts).numAttempts ≤ retry_attempts) := by
  have hrun : executeOrderWithRetry f retry_attempts = RetryOutcome.success 3 2 :=
    retry_fail_fail_ok f h0 h1 h2
  refine ⟨hrun, ?_, rfl, ?_⟩
  · unfold executeTradeLedgerUpdates
    rw [hrun]
    rfl
  · intro g
    exact retryAux_attempts_le g 3 3 0 0 (by omega)

/-- C6 witness: the attempt pattern fail, fail, succeed. -/
theorem retry_bounded_witness :
    ((fun i => decide (2 ≤ i)) 0 = false) ∧ ((fun i => decide (2 ≤ i)) 1 = false) ∧
    ((fun i => decide (2 ≤ i)) 2 = true) ∧
    executeOrderWithRetry (fun i => decide (2 ≤ i)) retry_attempts =
      RetryOutcome.success 3 2 ∧
    executeTradeLedgerUpdates (fun i => decide (2 ≤ i)) = 1 :=
  ⟨rfl, rfl, rfl,
    (retry_bounded_and_third_attempt_completes _ rfl rfl rfl).1,
    (retry_bounded_and_third_attempt_completes _ rfl rfl rfl).2.1⟩

/-! ## C5 -/

/-- C5: an execution failure leaves the ledger untouched.  Whenever a
`process_trade` decision ends in the execution-error outcome (the order
call raised), the final state equals the initial one — no lot created or
deleted, no history row appended, fake balance unchanged.  And in the
retry gateway, when every attempt fails (the retry budget is exhausted),
the ledger-update callback of `execute_trade` never runs. -/
theorem execution_failure_no_ledger_mutation :
    (∀ (sig : Signal) (env : Env) (st : LedgerState),
      (process_trade sig env st).2.1 = Outcome.execError →
      (process_trade sig env st).1 = st) ∧
    (∀ g : Nat → Bool, (∀ i, g i = false) → executeTradeLedgerUpdates g = 0) := by
  constructor
  · intro sig env st hout
    rcases process_trade_cases sig env st with ⟨o, tr, heq, -, -, -⟩ |
      ⟨qty, tr, -, heq⟩ | ⟨tr, heq⟩ | ⟨tr, heq⟩
    · rw [heq]
    · rw [heq] at hout
      simp at hout
    · rw [heq] at hout
      simp at hout
    · rw [heq] at hout
      simp at hout
  · intro g hall
    unfold executeTradeLedgerUpdates executeOrderWithRetry retry_attempts
    rw [retryAux_all_fail g hall 3 3 0 0 (by omega)]
    rfl

/-- C5 witness: a Buy decision whose order placement raises ends in the
execution-error outcome with the ledger unchanged, and an always-failing
retry run performs zero ledger updates. -/
theorem execution_failure_no_ledger_mutation_witness :
    (process_trade ⟨"BTCUSDT", some 2, 0, 0⟩
        ⟨1 / 2, 3, "enable", 5, 0, 0, none, true, true⟩ ⟨[], [], 0⟩).2.1 =
      Outcome.execError ∧
    (process_trade ⟨"BTCUSDT", some 2, 0, 0⟩
        ⟨1 / 2, 3, "enable", 5, 0, 0, none, true, true⟩ ⟨[], [], 0⟩).1 = ⟨[], [], 0⟩ ∧
    executeTradeLedgerUpdates (fun _ => false) = 0 := by
  have hpt := pt_buyFail ⟨"BTCUSDT", some 2, 0, 0⟩
      ⟨1 / 2, 3, "enable", 5, 0, 0, none, true, true⟩ ⟨[], [], 0⟩
      (by decide)
      (by rintro ⟨-, hd⟩ ; norm_num at hd)
      (by rintro ⟨hs, -⟩ ; exact absurd hs (by decide))
      (by show ¬ Signal.price _ > _ ; norm_num [Signal.price])
      ⟨rfl, rfl⟩
      (by decide)
      (by decide)
      rfl
  refine ⟨by rw [hpt], ?_, execution_failure_no_ledger_mutation.2 (fun _ => false)
    (fun _ => rfl)⟩
  exact execution_failure_no_ledger_mutation.1 _ _ _ (by rw [hpt])

end AgentWorkshop
